import Mathlib

/-!
Verification of the µHTTP request/response pipeline (`uhttp.py`) against its
natural-language specification.  The Python source is shallowly embedded:
byte strings become `List Nat`, Python `dict` (insertion-ordered, unique keys)
becomes an association list, fallible code returns `Except PyError`, and the
per-request ASGI event stream becomes an explicit list of chunk events.
-/

set_option maxRecDepth 10000

namespace UHttp

/-- Python byte strings are modelled as lists of byte values. -/
abbrev Bytes : Type := List Nat

/-- UTF-8 encoding of a single code point, as in `str.encode()`. -/
def utf8EncodeChar (c : Char) : Bytes :=
  let n := c.toNat
  if n < 0x80 then [n]
  else if n < 0x800 then [0xC0 + n / 64, 0x80 + n % 64]
  else if n < 0x10000 then [0xE0 + n / 4096, 0x80 + (n / 64) % 64, 0x80 + n % 64]
  else [0xF0 + n / 262144, 0x80 + (n / 4096) % 64, 0x80 + (n / 64) % 64, 0x80 + n % 64]

/-- UTF-8 encoding of a Python string, as in `str.encode()`. -/
def utf8Encode (s : String) : Bytes :=
  (s.toList.map utf8EncodeChar).flatten

/-!
## Ordered multi-value map (`MultiDict`, uhttp.py lines 23-84)

A Python `dict` keeps insertion order and has unique keys; `MultiDict` stores,
under each key, the ordered list of all values set for it.  We embed it as an
association list (first occurrence is authoritative, mirroring unique keys).
-/

/-- The underlying `dict` state of a `MultiDict`: key to ordered value list. -/
abbrev MultiDict (α : Type) : Type := List (String × List α)

/-- Underlying `dict.__getitem__`-style lookup (`super().get(key)`). -/
def mdLookup {α : Type} : MultiDict α → String → Option (List α)
  | [], _ => none
  | (k', v) :: rest, k => if k' = k then some v else mdLookup rest k

/-- `MultiDict.__setitem__`: `super().setdefault(key, []).append(value)` —
appends to the key's list, creating the key at the end if absent. -/
def mdSet {α : Type} : MultiDict α → String → α → MultiDict α
  | [], k, v => [(k, [v])]
  | (k', l) :: rest, k, v =>
    if k' = k then (k', l ++ [v]) :: rest else (k', l) :: mdSet rest k v

/-- `MultiDict.get(key, default=None)`: `super().get(key, [default])[-1]`. -/
def mdGet {α : Type} (m : MultiDict α) (k : String) (d : α) : α :=
  ((mdLookup m k).getD [d]).getLastD d

/-- `MultiDict._get(key, default=(None,))`: `super().get(key, list(default))`.
The Python default argument `(None,)` makes the absent-key result the
one-element list `[None]`. -/
def md_get {α : Type} (m : MultiDict α) (k : String) (d : List α) : List α :=
  (mdLookup m k).getD d

/-- Replace the value list stored under the first occurrence of a key
(the in-place `values.pop()` mutation seen from the dict). -/
def mdReplace {α : Type} : MultiDict α → String → List α → MultiDict α
  | [], _, _ => []
  | (k', l) :: rest, k, nl =>
    if k' = k then (k', nl) :: rest else (k', l) :: mdReplace rest k nl

/-- `dict.pop(key)`: remove the key entirely (keys are unique in a dict,
so filtering out the key is the removal). -/
def mdErase {α : Type} (m : MultiDict α) (k : String) : MultiDict α :=
  m.filter (fun e => decide (e.1 ≠ k))

/-- `MultiDict.pop` (state effect): `values = super().get(key, [])`;
`values.pop()` if `len(values) > 1` else `super().pop(key, default)`. -/
def mdPop {α : Type} (m : MultiDict α) (k : String) : MultiDict α :=
  match mdLookup m k with
  | none => m
  | some l => if l.length > 1 then mdReplace m k l.dropLast else mdErase m k

/-- `MultiDict.setdefault`-style insertion used by `Response.__init__`:
`super().setdefault(key, [default])` inserts the list if the key is absent. -/
def mdSetdefaultL (m : MultiDict String) (k : String) (d : List String) :
    MultiDict String :=
  match mdLookup m k with
  | some _ => m
  | none => m ++ [(k, d)]

/-- The keys of the dict in iteration order. -/
def mdKeys {α : Type} (m : MultiDict α) : List String :=
  m.map Prod.fst

/-!
### `MultiDict.__init__` / `Headers.__init__` from another `MultiDict`

uhttp.py lines 27-28 (and 91-92 for `Headers`) read
`super().__init__({k: v[:] for k, v in mapping.itemslist()})`.
Attribute lookup on the receiver resolves against the methods defined by
`MultiDict` (lines 23-84), `Headers` (lines 87-128) and the `dict` built-ins;
`itemslist` is defined by none of them, so the call raises `AttributeError`
before any copying happens.
-/

/-- Python exceptions relevant to the embedded code paths. -/
inductive PyError where
  | typeError
  | valueError
  | nameError (missing : String)
  | attributeError (attr : String)
  deriving DecidableEq, Repr

/-- Methods defined in the body of `class MultiDict(dict)` (uhttp.py 23-84). -/
def multiDictClassMethods : List String :=
  ["__init__", "__getitem__", "__setitem__", "_get", "get", "_items", "items",
   "_pop", "pop", "_setdefault", "setdefault", "_values", "values",
   "_update", "update"]

/-- Methods defined in the body of `class Headers(MultiDict)` (uhttp.py 87-128). -/
def headersClassMethods : List String :=
  ["__init__", "__getitem__", "__setitem__", "_get", "get", "_pop", "pop",
   "_setdefault", "setdefault"]

/-- Public methods provided by the `dict` base class. -/
def dictClassMethods : List String :=
  ["clear", "copy", "fromkeys", "get", "items", "keys", "pop", "popitem",
   "setdefault", "update", "values"]

/-- Attribute names resolvable on a `MultiDict` instance. -/
def multiDictAttrs : List String :=
  multiDictClassMethods ++ dictClassMethods

/-- Attribute names resolvable on a `Headers` instance. -/
def headersAttrs : List String :=
  headersClassMethods ++ multiDictClassMethods ++ dictClassMethods

/-- `MultiDict.__init__(self, mapping)` for a `MultiDict` argument
(uhttp.py 27-28): evaluates `mapping.itemslist()`; if the attribute resolved
it would build the per-key deep copy, but resolution fails. -/
def multiDictOfMultiDict {α : Type} (m : MultiDict α) :
    Except PyError (MultiDict α) :=
  if "itemslist" ∈ multiDictAttrs then
    .ok (m.map (fun e => (e.1, e.2)))
  else
    .error (.attributeError "itemslist")

/-- `Headers.__init__(self, mapping)` for a `MultiDict` argument
(uhttp.py 91-92): evaluates `mapping.itemslist()`, lowercasing keys if the
attribute resolved, but resolution fails. -/
def headersOfMultiDict {α : Type} (m : MultiDict α) :
    Except PyError (MultiDict α) :=
  if "itemslist" ∈ headersAttrs then
    .ok (m.map (fun e => (e.1.toLower, e.2)))
  else
    .error (.attributeError "itemslist")

/-!
## HTTP status phrases (`http.HTTPStatus`)

`Response.__init__` and `Response.from_any` consult `HTTPStatus(status).phrase`,
which raises `ValueError` for a non-member value.  The table below is the
CPython `http.HTTPStatus` member list.
-/

/-- `HTTPStatus(n).phrase`, or `none` when `HTTPStatus(n)` raises `ValueError`. -/
def httpPhrase? : Int → Option String
  | 100 => some "Continue"
  | 101 => some "Switching Protocols"
  | 102 => some "Processing"
  | 103 => some "Early Hints"
  | 200 => some "OK"
  | 201 => some "Created"
  | 202 => some "Accepted"
  | 203 => some "Non-Authoritative Information"
  | 204 => some "No Content"
  | 205 => some "Reset Content"
  | 206 => some "Partial Content"
  | 207 => some "Multi-Status"
  | 208 => some "Already Reported"
  | 226 => some "IM Used"
  | 300 => some "Multiple Choices"
  | 301 => some "Moved Permanently"
  | 302 => some "Found"
  | 303 => some "See Other"
  | 304 => some "Not Modified"
  | 305 => some "Use Proxy"
  | 307 => some "Temporary Redirect"
  | 308 => some "Permanent Redirect"
  | 400 => some "Bad Request"
  | 401 => some "Unauthorized"
  | 402 => some "Payment Required"
  | 403 => some "Forbidden"
  | 404 => some "Not Found"
  | 405 => some "Method Not Allowed"
  | 406 => some "Not Acceptable"
  | 407 => some "Proxy Authentication Required"
  | 408 => some "Request Timeout"
  | 409 => some "Conflict"
  | 410 => some "Gone"
  | 411 => some "Length Required"
  | 412 => some "Precondition Failed"
  | 413 => some "Request Entity Too Large"
  | 414 => some "Request-URI Too Long"
  | 415 => some "Unsupported Media Type"
  | 416 => some "Requested Range Not Satisfiable"
  | 417 => some "Expectation Failed"
  | 418 => some "I\x27m a Teapot"
  | 421 => some "Misdirected Request"
  | 422 => some "Unprocessable Entity"
  | 423 => some "Locked"
  | 424 => some "Failed Dependency"
  | 425 => some "Too Early"
  | 426 => some "Upgrade Required"
  | 428 => some "Precondition Required"
  | 429 => some "Too Many Requests"
  | 431 => some "Request Header Fields Too Large"
  | 451 => some "Unavailable For Legal Reasons"
  | 500 => some "Internal Server Error"
  | 501 => some "Not Implemented"
  | 502 => some "Bad Gateway"
  | 503 => some "Service Unavailable"
  | 504 => some "Gateway Timeout"
  | 505 => some "HTTP Version Not Supported"
  | 506 => some "Variant Also Negotiates"
  | 507 => some "Insufficient Storage"
  | 508 => some "Loop Detected"
  | 510 => some "Not Extended"
  | 511 => some "Network Authentication Required"
  | _ => none

/-!
## `Response` (uhttp.py 161-198)
-/

/-- The observable state of a `Response` object: status, derived phrase,
multi-valued headers and body bytes (cookies are not used by the claims). -/
structure Response where
  status : Int
  description : String
  headers : MultiDict String
  body : Bytes
  deriving DecidableEq, Repr

/-- `Response.__init__(status, headers=..., body=...)`:
look up the status phrase (empty if nonstandard), default the content type,
and default the body to the phrase for 400-599 statuses. -/
def Response.make (status : Int) (headers : MultiDict String) (body : Bytes) :
    Response :=
  let description := (httpPhrase? status).getD ""
  let headers1 := mdSetdefaultL headers "content-type" ["text/html; charset=utf-8"]
  let body1 :=
    if body = [] ∧ 400 ≤ status ∧ status < 600 then utf8Encode description
    else body
  ⟨status, description, headers1, body1⟩

/-!
## `json.dumps` for JSON-representable mapping values
-/

/-- JSON-representable Python values (the shapes a handler's mapping can hold). -/
inductive PyJson where
  | null
  | pbool (b : Bool)
  | int (n : Int)
  | str (s : String)
  | arr (xs : List PyJson)
  | obj (kvs : List (String × PyJson))

/-- Lowercase hexadecimal digit. -/
def hexDigit (n : Nat) : Char :=
  if n < 10 then Char.ofNat (48 + n) else Char.ofNat (87 + n)

/-- Four lowercase hex digits, as in `json.dumps` `\uXXXX` escapes. -/
def hex4 (n : Nat) : String :=
  String.mk [hexDigit (n / 4096 % 16), hexDigit (n / 256 % 16),
             hexDigit (n / 16 % 16), hexDigit (n % 16)]

/-- `json.dumps` escaping of one character (`ensure_ascii=True` default):
printable ASCII except quote and backslash is kept, everything else escaped. -/
def jsonEscapeChar (c : Char) : String :=
  let n := c.toNat
  if c = '"' then "\\\""
  else if c = '\\' then "\\\\"
  else if n = 10 then "\\n"
  else if n = 13 then "\\r"
  else if n = 9 then "\\t"
  else if n = 8 then "\\b"
  else if n = 12 then "\\f"
  else if n < 0x20 then "\\u" ++ hex4 n
  else if n < 0x7f then String.singleton c
  else if n < 0x10000 then "\\u" ++ hex4 n
  else
    let v := n - 0x10000
    "\\u" ++ hex4 (0xD800 + v / 1024) ++ "\\u" ++ hex4 (0xDC00 + v % 1024)

/-- `json.dumps` string serialization. -/
def jsonQuote (s : String) : String :=
  "\"" ++ String.join (s.toList.map jsonEscapeChar) ++ "\""

mutual

/-- `json.dumps(value)` with the default separators. -/
def jsonDumps : PyJson → String
  | .null => "null"
  | .pbool true => "true"
  | .pbool false => "false"
  | .int n => toString n
  | .str s => jsonQuote s
  | .arr xs => "[" ++ String.intercalate ", " (jsonDumpsList xs) ++ "]"
  | .obj kvs => "\x7b" ++ String.intercalate ", " (jsonDumpsPairs kvs) ++ "\x7d"

/-- Serialize the elements of a JSON array. -/
def jsonDumpsList : List PyJson → List String
  | [] => []
  | x :: xs => jsonDumps x :: jsonDumpsList xs

/-- Serialize the key/value pairs of a JSON object. -/
def jsonDumpsPairs : List (String × PyJson) → List String
  | [] => []
  | (k, v) :: rest => (jsonQuote k ++ ": " ++ jsonDumps v) :: jsonDumpsPairs rest

end

/-!
## `Response.from_any` (uhttp.py 179-198) and Python truthiness
-/

/-- The value shapes a handler or hook can return, as dispatched on by
`Response.from_any`'s `isinstance` chain; `other` stands for any value of a
type outside that chain. -/
inductive PyVal where
  | int (n : Int)
  | str (s : String)
  | bytes (b : Bytes)
  | dict (d : List (String × PyJson))
  | resp (r : Response)
  | pynone
  | other

/-- Python truthiness of a returned value (`if ret := ...` at lines 382, 403). -/
def truthy : PyVal → Bool
  | .int n => n != 0
  | .str s => s != ""
  | .bytes b => b != []
  | .dict d => !d.isEmpty
  | .resp _ => true
  | .pynone => false
  | .other => true

/-- `Response.from_any` (uhttp.py 179-198).  The `int` branch evaluates
`HTTPStatus(any).phrase`, which raises `ValueError` for a nonstandard code;
the final `else` branch raises `TypeError`. -/
def fromAny : PyVal → Except PyError Response
  | .int n =>
    match httpPhrase? n with
    | some p => .ok (Response.make n [] (utf8Encode p))
    | none => .error .valueError
  | .str s => .ok (Response.make 200 [] (utf8Encode s))
  | .bytes b => .ok (Response.make 200 [] b)
  | .dict d =>
    .ok (Response.make 200 [("content-type", ["application/json"])]
          (utf8Encode (jsonDumps (.obj d))))
  | .resp r => .ok r
  | .pynone => .ok (Response.make 204 [] [])
  | .other => .error .typeError

/-!
## Streaming body reader (`Body`, uhttp.py 201-221)

The transport's event stream is a list of `(body, more_body)` chunk events;
`receive()` pops the next one, and on an empty list the coroutine would
suspend forever (modelled as `none`).
-/

/-- The state of a `Body` instance plus the not-yet-delivered chunk events. -/
structure BodyState where
  buffer : Bytes
  finished : Bool
  events : List (Bytes × Bool)
  deriving DecidableEq, Repr

/-- The `while len(self.buffer) == 0` receive loop of `Body.read`
(uhttp.py 212-216): append chunk payloads until the buffer is non-empty,
marking `finished` when an event carries no `more_body`. -/
def fillGo (buf : Bytes) (fin : Bool) : List (Bytes × Bool) → Option BodyState
  | [] => if buf = [] then none else some ⟨buf, fin, []⟩
  | (b, more) :: rest =>
    if buf = [] then fillGo (buf ++ b) (if more then fin else true) rest
    else some ⟨buf, fin, (b, more) :: rest⟩

/-- Run the receive loop from a `BodyState`. -/
def bodyFill (s : BodyState) : Option BodyState :=
  fillGo s.buffer s.finished s.events

/-- `Body.read(n)` (uhttp.py 207-221): returns the bytes handed back together
with the successor state; `none` models a read that suspends forever. -/
def bodyRead (s : BodyState) (n : Int) : Option (Bytes × BodyState) :=
  if n = 0 then some ([], s)
  else
    match (if s.finished then some s else bodyFill s) with
    | none => none
    | some s1 =>
      let result := s1.buffer
      if 0 < n then
        some (result.take n.toNat, ⟨result.drop n.toNat, s1.finished, s1.events⟩)
      else
        some (result, s1)

/-!
## Urlencoded/multipart chunk loop (uhttp.py 372-379)
-/

/-- Outcome of the `while True` receive loop feeding the form parser. -/
inductive FormLoopResult where
  | finished (written : List Bytes)
  | blocked
  | raised (e : PyError)
  deriving DecidableEq, Repr

/-- The receive loop at uhttp.py 372-378: write each chunk to the parser,
then check `len(request.body) > self._max_content`.  When that check fires,
the statement `raise HTTPException(413)` evaluates the name `HTTPException`,
which is defined nowhere in the module, so a `NameError` is raised instead of
any 413 response. -/
def formLoop (maxContent : Int) (requestBody : Bytes) (written : List Bytes) :
    List (Bytes × Bool) → FormLoopResult
  | [] => .blocked
  | (b, more) :: rest =>
    let written1 := written ++ [b]
    if (requestBody.length : Int) > maxContent then .raised (.nameError "HTTPException")
    else if more then formLoop maxContent requestBody written1 rest
    else .finished written1

/-- `request.body` during the urlencoded/multipart loop: the `Request` is
constructed with the default `body=b''` (uhttp.py 141, 335-340) and the field
is never reassigned before line 375, so the length check always sees `b''`. -/
def requestBodyDuringFormLoop : Bytes := []

/-- The whole content-decode loop for a urlencoded/multipart request. -/
def decodeFormContent (maxContent : Int) (events : List (Bytes × Bool)) :
    FormLoopResult :=
  formLoop maxContent requestBodyDuringFormLoop [] events

/-!
## Content-decoder selection (uhttp.py 357-364)
-/

/-- Python `str.split(sep)` / `bytes.split(sep)` on a one-character separator. -/
def pySplit (sep : Char) : List Char → List (List Char)
  | [] => [[]]
  | c :: rest =>
    if c = sep then [] :: pySplit sep rest
    else
      match pySplit sep rest with
      | [] => [[c]]
      | s :: ss => (c :: s) :: ss

/-- The characters of `application/json`. -/
def jsonCT : List Char := "application/json".toList

/-- `content_type.split(b'+')[0] == b'application/json'` (uhttp.py 358). -/
def selectsJson (ct : List Char) : Bool :=
  (pySplit '+' ct).headD [] == jsonCT

/-- Which content decoder, if any, the pipeline applies to the body. -/
inductive ContentDecoder where
  | djson
  | dform
  | dnone
  deriving DecidableEq, Repr

/-- Decoder selection on the parsed content type (uhttp.py 357-364): the part
of the type before the first `+` is compared with `application/json`, then the
exact type with the two form types. -/
def selectDecoder (ct : List Char) : ContentDecoder :=
  if selectsJson ct then .djson
  else if ct == "application/x-www-form-urlencoded".toList ||
          ct == "multipart/form-data".toList then .dform
  else .dnone

/-!
## Query-string parsing (uhttp.py 338): `parse_qsl(unquote(query_string))`

`urllib.parse.unquote` decodes every valid `%XY` escape; `parse_qsl` splits on
`&`, then each field once on `=`, skips fields without `=` or with an empty
value (default `keep_blank_values=False`), replaces `+` by space and unquotes
name and value.  The embedding works on characters, identifying a decoded byte
with the character of that code, which is exact for ASCII query strings.
-/

/-- Is the character an ASCII hex digit? -/
def isHexDigitCh (c : Char) : Bool :=
  (48 ≤ c.toNat && c.toNat ≤ 57) || (97 ≤ c.toNat && c.toNat ≤ 102) ||
  (65 ≤ c.toNat && c.toNat ≤ 70)

/-- Numeric value of an ASCII hex digit. -/
def hexVal (c : Char) : Nat :=
  if c.toNat ≤ 57 then c.toNat - 48
  else if c.toNat ≤ 70 then c.toNat - 55
  else c.toNat - 87

/-- `urllib.parse.unquote`: decode each valid `%XY` escape, leaving invalid
escapes untouched. -/
def unquoteChars : List Char → List Char
  | '%' :: a :: b :: rest =>
    if isHexDigitCh a && isHexDigitCh b then
      Char.ofNat (16 * hexVal a + hexVal b) :: unquoteChars rest
    else '%' :: unquoteChars (a :: b :: rest)
  | c :: rest => c :: unquoteChars rest
  | [] => []

/-- Python `s.split('=', 1)` reported as a pair, or `none` when `=` is absent. -/
def splitFirstEq : List Char → Option (List Char × List Char)
  | [] => none
  | c :: rest =>
    if c = '=' then some ([], rest)
    else
      match splitFirstEq rest with
      | none => none
      | some (n, v) => some (c :: n, v)

/-- `s.replace('+', ' ')` as done by `parse_qsl` on names and values. -/
def plusToSpace (s : List Char) : List Char :=
  s.map (fun c => if c = '+' then ' ' else c)

/-- `urllib.parse.parse_qsl` with its default arguments. -/
def pyParseQsl (s : List Char) : List (List Char × List Char) :=
  (pySplit '&' s).filterMap (fun field =>
    match splitFirstEq field with
    | none => none
    | some (n, v) =>
      if v = [] then none
      else some (unquoteChars (plusToSpace n), unquoteChars (plusToSpace v)))

/-- The query-args pairs the app computes at uhttp.py 338:
`parse_qsl(unquote(scope['query_string']))`. -/
def appQueryArgs (qs : List Char) : List (List Char × List Char) :=
  pyParseQsl (unquoteChars qs)

/-!
## Router and hook pipeline (uhttp.py 381-406)
-/

/-- The observable part of a `Request` for routing and hooks. -/
structure Request where
  method : String
  path : String
  params : List (String × String)
  deriving DecidableEq, Repr

/-- A compiled route pattern, i.e. the embedding of
`re.compile(pattern).fullmatch`: applied to the whole request path, returning
`groupdict()` on a full match and `None` otherwise. -/
abbrev PatternFn : Type := String → Option (List (String × String))

/-- A route handler (its returned value, as dispatched on by `from_any`). -/
abbrev Handler : Type := Request → PyVal

/-- A before-hook: receives the request. -/
abbrev BeforeHook : Type := Request → PyVal

/-- An after-hook: receives the request and the in-progress response. -/
abbrev AfterHook : Type := Request → Response → PyVal

/-- The method table of a route, in registration order. -/
abbrev MethodTable : Type := List (String × Handler)

/-- An application after route compilation: compiled routes in registration
order and hooks in registration order (tagged with identifiers so that the
run trace can name them). -/
structure AppModel where
  routes : List (PatternFn × MethodTable)
  before : List (Nat × BeforeHook)
  after : List (Nat × AfterHook)

/-- Trace events recording which user code the pipeline invoked; an `afterHk`
event also records the response value the hook received. -/
inductive Ev where
  | beforeHk (id : Nat)
  | handler
  | afterHk (id : Nat) (resp : Response)
  deriving DecidableEq, Repr

/-- `methods.get(request.method)` (uhttp.py 388): dict lookup. -/
def lookupMethod : MethodTable → String → Option Handler
  | [], _ => none
  | (m, f) :: rest, m' => if m = m' then some f else lookupMethod rest m'

/-- `', '.join(methods)` (uhttp.py 393): the dict's keys in insertion order. -/
def joinComma (ss : List String) : String :=
  String.intercalate ", " ss

/-- The 405 response built at uhttp.py 392-393: `Response(405)` and then
`response.headers['allow'] = ', '.join(methods)` (a `MultiDict` append). -/
def response405 (methods : MethodTable) : Response :=
  let r := Response.make 405 [] []
  { status := r.status, description := r.description,
    headers := mdSet r.headers "allow" (joinComma (methods.map Prod.fst)),
    body := r.body }

/-- The `for route, methods in self._routes.items()` scan (uhttp.py 385-386):
first pattern whose `fullmatch` succeeds wins, with its `groupdict()`. -/
def findMatch : List (PatternFn × MethodTable) → String →
    Option (List (String × String) × MethodTable)
  | [], _ => none
  | (p, ms) :: rest, path =>
    match p path with
    | some g => some (g, ms)
    | none => findMatch rest path

/-- Route matching and dispatch (uhttp.py 385-396): 404 when no pattern
matches; otherwise copy the named groups into `request.params`, then either
invoke the registered handler (coercing its return value) or answer 405 with
the `Allow` header. -/
def routeStage (routes : List (PatternFn × MethodTable)) (req : Request) :
    Except PyError (List Ev × Response) :=
  match findMatch routes req.path with
  | none => .ok ([], Response.make 404 [] [])
  | some (groups, methods) =>
    match lookupMethod methods req.method with
    | some f =>
      (fromAny (f { method := req.method, path := req.path, params := groups })).map
        (fun r => ([Ev.handler], r))
    | none => .ok ([], response405 methods)

/-- The before-hook loop (uhttp.py 381-383): run hooks in order; the first
truthy return value is coerced and raised as the early response. -/
def runBefore : List (Nat × BeforeHook) → Request →
    List Ev × Option (Except PyError Response)
  | [], _ => ([], none)
  | (i, h) :: rest, req =>
    if truthy (h req) then ([Ev.beforeHk i], some (fromAny (h req)))
    else
      let (t, r) := runBefore rest req
      (Ev.beforeHk i :: t, r)

/-- The after-hook loop (uhttp.py 401-406): run hooks in order on the current
response; the first truthy return value is coerced, raised, caught and made
the final response, skipping the remaining after-hooks. -/
def runAfter : List (Nat × AfterHook) → Request → Response →
    Except PyError (List Ev × Response)
  | [], _, resp => .ok ([], resp)
  | (i, h) :: rest, req, resp =>
    if truthy (h req resp) then
      match fromAny (h req resp) with
      | .ok r => .ok ([Ev.afterHk i resp], r)
      | .error e => .error e
    else
      (runAfter rest req resp).map (fun p => (Ev.afterHk i resp :: p.1, p.2))

/-- The hook-and-dispatch portion of `App.__call__` for one request
(uhttp.py 343-406): before-hooks, then routing (skipped when a before-hook
raised an early response, which the `except Response` arm catches), then
after-hooks on the resulting response.  Errors other than raised `Response`
values (`TypeError`, `ValueError` from coercion) escape the pipeline. -/
def handleRequest (app : AppModel) (req : Request) :
    Except PyError (List Ev × Response) :=
  let (bt, early) := runBefore app.before req
  let stage1 : Except PyError (List Ev × Response) :=
    match early with
    | some (.error e) => .error e
    | some (.ok r) => .ok (bt, r)
    | none => (routeStage app.routes req).map (fun p => (bt ++ p.1, p.2))
  match stage1 with
  | .error e => .error e
  | .ok (t1, resp) =>
    (runAfter app.after req resp).map (fun p => (t1 ++ p.1, p.2))

/-!
## Lifespan startup handling (uhttp.py 302-319)
-/

/-- Events the app sends on the lifespan channel. -/
inductive LifeEv where
  | startupComplete
  | startupFailed (msg : String)
  | shutdownComplete
  | shutdownFailed (msg : String)
  deriving DecidableEq, Repr

/-- Outcome of processing one `lifespan.startup` event: the events sent,
whether `self._routes` was replaced by the compiled table, and whether the
`while True` loop was left by `break`. -/
structure StartupOutcome where
  sent : List LifeEv
  routesCompiled : Bool
  loopStops : Bool
  deriving DecidableEq, Repr

/-- Run the startup hooks in registration order against the shared state,
stopping at the first raised exception (whose description is the message
used for the failure event). -/
def runStartupHooks {St : Type} :
    List (St → Except String St) → St → Except String St
  | [], st => .ok st
  | h :: rest, st =>
    match h st with
    | .ok st1 => runStartupHooks rest st1
    | .error e => .error e

/-- Processing of one `lifespan.startup` event (uhttp.py 306-319): run every
startup hook, then compile the route table, inside one `try`; on any
exception send `lifespan.startup.failed` with the error description and
`break`; otherwise send `lifespan.startup.complete` and keep looping. -/
def processStartup {St Routes : Type}
    (hooks : List (St → Except String St))
    (compileRoutes : Except String Routes) (st : St) : StartupOutcome :=
  match runStartupHooks hooks st with
  | .error e => ⟨[.startupFailed e], false, true⟩
  | .ok _ =>
    match compileRoutes with
    | .error e => ⟨[.startupFailed e], false, true⟩
    | .ok _ => ⟨[.startupComplete], true, false⟩

/-!
## Helper definitions used by the claim statements
-/

/-- Apply a sequence of `set` operations (`m[k] = v`) to an empty `MultiDict`. -/
def applySets {α : Type} (ops : List (String × α)) : MultiDict α :=
  ops.foldl (fun m p => mdSet m p.1 p.2) []

/-- The values set for a key, in order, across a sequence of `set` operations. -/
def valsFor {α : Type} (ops : List (String × α)) (k : String) : List α :=
  (ops.filter (fun p => decide (p.1 = k))).map Prod.snd

end UHttp

namespace UHttp

/-!
## Theorems
-/

/-- C1 (code bug evidence): the urlencoded/multipart chunk loop never aborts
with 413.  With `max_content = 5`, a single 10-byte chunk — and likewise two
chunks of 10 bytes each — is processed to completion, because the guard reads
`len(request.body)`, which is always `0` during streaming.  And on any path
where the guard could fire (here a negative `max_content`), the loop raises
`NameError` for the undefined name `HTTPException`, not a 413 `Response`. -/
theorem oversized_form_body_never_413 :
    decodeFormContent 5 [(List.replicate 10 97, false)] =
      .finished [List.replicate 10 97] ∧
    decodeFormContent 5 [(List.replicate 10 97, true), (List.replicate 10 97, false)] =
      .finished [List.replicate 10 97, List.replicate 10 97] ∧
    decodeFormContent (-1) [(List.replicate 10 97, false)] =
      .raised (.nameError "HTTPException") := by
  refine ⟨by decide, by decide, by decide⟩

/-- C2 (code bug evidence): `Body.read(-1)` hands back the buffered bytes but
never consumes them (`self.buffer` is only reassigned when `n > 0`).  Feeding
the body `b'ab'` as one final chunk, a first `read(-1)` returns `b'ab'` and
leaves the full buffer in place, and a second `read(-1)` returns `b'ab'`
again from an unchanged state: reads never return empty after exhaustion and
their concatenation duplicates the stream instead of reconstructing it. -/
theorem body_read_negative_retains_buffer :
    bodyRead ⟨[], false, [([97, 98], false)]⟩ (-1) =
      some ([97, 98], ⟨[97, 98], true, []⟩) ∧
    bodyRead ⟨[97, 98], true, []⟩ (-1) =
      some ([97, 98], ⟨[97, 98], true, []⟩) := by
  refine ⟨by decide, by decide⟩

/-- C4 (code bug evidence): constructing a `MultiDict` (or a `Headers`) from
an existing `MultiDict` does not succeed: the copy branch calls
`mapping.itemslist()`, and no such attribute is defined on `MultiDict`,
`Headers`, or `dict`, so `AttributeError` is raised before any copying. -/
theorem multidict_copy_constructor_attribute_error :
    multiDictOfMultiDict [("a", ["1"])] = .error (.attributeError "itemslist") ∧
    headersOfMultiDict [("a", ["1"])] = .error (.attributeError "itemslist") ∧
    ∀ (m : MultiDict String),
      multiDictOfMultiDict m = .error (.attributeError "itemslist") ∧
      headersOfMultiDict m = .error (.attributeError "itemslist") := by
  refine ⟨by rfl, by rfl, fun m => ⟨?_, ?_⟩⟩
  · unfold multiDictOfMultiDict
    rw [if_neg (by decide)]
  · unfold headersOfMultiDict
    rw [if_neg (by decide)]

/-- C9: if running the startup hooks in order raises, the lifespan handler
sends exactly one `lifespan.startup.failed` event carrying the error
description, sends no `lifespan.startup.complete`, leaves the route table
uncompiled, and breaks out of the lifespan loop. -/
theorem startup_hook_failure_aborts {St Routes : Type}
    (hooks : List (St → Except String St)) (st : St) (e : String)
    (compileRoutes : Except String Routes)
    (hfail : runStartupHooks hooks st = .error e) :
    processStartup hooks compileRoutes st = ⟨[.startupFailed e], false, true⟩ ∧
    LifeEv.startupComplete ∉ (processStartup hooks compileRoutes st).sent ∧
    (processStartup hooks compileRoutes st).routesCompiled = false ∧
    (processStartup hooks compileRoutes st).loopStops = true := by
  unfold processStartup
  rw [hfail]
  simp

/-- Witness for C9 at a concrete failing startup hook. -/
theorem startup_hook_failure_aborts_witness :
    @processStartup Nat Unit
        [fun _ => Except.error "boom"] (Except.ok ()) 0 =
      ⟨[.startupFailed "boom"], false, true⟩ ∧
    LifeEv.startupComplete ∉
      (@processStartup Nat Unit
        [fun _ => Except.error "boom"] (Except.ok ()) 0).sent :=
  ⟨(startup_hook_failure_aborts [fun _ => Except.error "boom"] 0 "boom"
      (Except.ok ()) rfl).1,
   (startup_hook_failure_aborts [fun _ => Except.error "boom"] 0 "boom"
      (Except.ok ()) rfl).2.1⟩

/-- C10: the app computes query args as `parse_qsl(unquote(query_string))` —
percent-decoding the whole raw query string before splitting — so a value
containing the percent-encoded delimiter `%26` is split at the decoded `&`:
for `a=1%26b=2` the app yields the pairs `a=1` and `b=2`, while standard
urlencoded parsing of the same string yields the single pair
`('a', '1&b=2')`. -/
theorem query_args_unquote_before_split :
    (∀ qs : List Char, appQueryArgs qs = pyParseQsl (unquoteChars qs)) ∧
    appQueryArgs "a=1%26b=2".toList =
      [("a".toList, "1".toList), ("b".toList, "2".toList)] ∧
    pyParseQsl "a=1%26b=2".toList = [("a".toList, "1&b=2".toList)] ∧
    appQueryArgs "a=1%26b=2".toList ≠ pyParseQsl "a=1%26b=2".toList := by
  refine ⟨fun qs => rfl, by decide, by decide, by decide⟩

/-- `pySplit` always yields at least one segment, like Python `split`. -/
theorem pySplit_ne_nil (sep : Char) (l : List Char) : pySplit sep l ≠ [] := by
  induction l with
  | nil => simp [pySplit]
  | cons c rest ih =>
    simp only [pySplit]
    split
    · simp
    · split
      · simp
      · simp

/-- The first segment of a Python `split` is the longest separator-free
prefix. -/
theorem pySplit_headD (sep : Char) (l : List Char) :
    (pySplit sep l).headD [] = l.takeWhile (fun c => c != sep) := by
  induction l with
  | nil => rfl
  | cons c rest ih =>
    by_cases h : c = sep
    · subst h
      simp [pySplit, List.takeWhile_cons]
    · have hb : (c != sep) = true := by simp [h]
      simp only [pySplit, if_neg h, List.takeWhile_cons, hb, if_true]
      cases hs : pySplit sep rest with
      | nil => exact absurd hs (pySplit_ne_nil sep rest)
      | cons s ss =>
        rw [hs] at ih
        simp only [List.headD] at ih ⊢
        rw [ih]

/-- Characterize when the plus-free prefix of a character list equals a given
plus-free word: the list is the word itself or the word followed by `+`. -/
theorem takeWhile_eq_iff_plus :
    ∀ w : List Char, (∀ c ∈ w, (c != '+') = true) →
    ∀ l : List Char, l.takeWhile (fun c => c != '+') = w ↔
      (l = w ∨ ∃ s, l = w ++ '+' :: s) := by
  intro w
  induction w with
  | nil =>
    intro _ l
    cases l with
    | nil => simp
    | cons c rest =>
      by_cases hc : c = '+'
      · subst hc
        simp [List.takeWhile_cons]
      · have hb : (c != '+') = true := by simp [hc]
        simp [List.takeWhile_cons, hb, hc]
  | cons a w' ih =>
    intro hw l
    have ha : (a != '+') = true := hw a (List.mem_cons_self a w')
    have ha' : a ≠ '+' := by simpa using ha
    have hw' : ∀ c ∈ w', (c != '+') = true :=
      fun c hc => hw c (List.mem_cons_of_mem a hc)
    cases l with
    | nil => simp
    | cons c rest =>
      by_cases hc : c = '+'
      · subst hc
        simp [List.takeWhile_cons, Ne.symm ha']
      · have hb : (c != '+') = true := by simp [hc]
        simp only [List.takeWhile_cons, hb, if_true, List.cons_append,
          List.cons.injEq]
        rw [ih hw' rest]
        constructor
        · rintro ⟨rfl, h | ⟨s, rfl⟩⟩
          · exact Or.inl ⟨rfl, h⟩
          · exact Or.inr ⟨s, rfl, rfl⟩
        · rintro (⟨rfl, rfl⟩ | ⟨s, rfl, rfl⟩)
          · exact ⟨rfl, Or.inl rfl⟩
          · exact ⟨rfl, Or.inr ⟨s, rfl⟩⟩

/-- C3 (counterexample): a request with parsed content-type
`application/ld+json` is not routed to the JSON decoder — the comparison
`content_type.split(b'+')[0] == b'application/json'` sees `application/ld`,
so no decoder at all is selected. -/
theorem ld_json_not_routed_to_json :
    selectDecoder "application/ld+json".toList = ContentDecoder.dnone ∧
    ContentDecoder.dnone ≠ ContentDecoder.djson := by
  refine ⟨by decide, by decide⟩

/-- C3 (amended): the JSON decoder is selected exactly when the part of the
parsed content-type before the first `+` equals `application/json`, i.e. for
`application/json` itself and for `application/json+anything` — not for types
such as `application/ld+json` whose pre-`+` part differs. -/
theorem json_selection_prefix_before_plus :
    ∀ ct : List Char,
      selectDecoder ct = ContentDecoder.djson ↔
        (ct = jsonCT ∨ ∃ s, ct = jsonCT ++ '+' :: s) := by
  intro ct
  have h2 : selectsJson ct = true ↔
      ct.takeWhile (fun c => c != '+') = jsonCT := by
    unfold selectsJson
    rw [pySplit_headD]
    exact beq_iff_eq
  have h3 := takeWhile_eq_iff_plus jsonCT (by decide) ct
  unfold selectDecoder
  by_cases hs : selectsJson ct = true
  · simp only [hs, if_true, true_iff]
    exact h3.mp (h2.mp hs)
  · have hns : ¬ (ct = jsonCT ∨ ∃ s, ct = jsonCT ++ '+' :: s) :=
      fun h => hs (h2.mpr (h3.mpr h))
    rw [if_neg hs]
    constructor
    · intro h
      split_ifs at h
    · intro h
      exact absurd h hns

/-- Effect of one `set` (`m[k] = v`) on the list stored under each key. -/
theorem mdLookup_mdSet {α : Type} (m : MultiDict α) (k q : String) (v : α) :
    mdLookup (mdSet m k v) q =
      if q = k then some ((mdLookup m k).getD [] ++ [v]) else mdLookup m q := by
  induction m with
  | nil =>
    by_cases h : q = k
    · subst h
      simp [mdSet, mdLookup]
    · simp [mdSet, mdLookup, h, Ne.symm h]
  | cons e rest ih =>
    obtain ⟨k1, l⟩ := e
    by_cases hk : k1 = k
    · subst hk
      by_cases hq : q = k1
      · subst hq
        simp [mdSet, mdLookup]
      · simp [mdSet, mdLookup, hq, Ne.symm hq]
    · by_cases hq1 : k1 = q
      · have hqk : ¬ q = k := fun h => hk (hq1.trans h)
        simp [mdSet, mdLookup, hk, hq1, hqk]
      · simp [mdSet, mdLookup, hk, hq1, ih]

/-- Unfold `valsFor` over the first `set` operation. -/
theorem valsFor_cons {α : Type} (p : String × α) (ops : List (String × α))
    (k : String) :
    valsFor (p :: ops) k =
      if p.1 = k then p.2 :: valsFor ops k else valsFor ops k := by
  by_cases h : p.1 = k <;> simp [valsFor, h]

/-- The list stored under a key after a sequence of `set` operations applied
on top of an arbitrary starting dict. -/
theorem mdLookup_foldl_set {α : Type} [DecidableEq α]
    (ops : List (String × α)) (k : String) :
    ∀ m : MultiDict α,
      mdLookup (ops.foldl (fun m p => mdSet m p.1 p.2) m) k =
        match mdLookup m k with
        | some l => some (l ++ valsFor ops k)
        | none => if valsFor ops k = [] then none else some (valsFor ops k) := by
  induction ops with
  | nil =>
    intro m
    cases h : mdLookup m k <;> simp [valsFor, h]
  | cons p rest ih =>
    intro m
    rw [List.foldl_cons, ih (mdSet m p.1 p.2), mdLookup_mdSet, valsFor_cons]
    by_cases hp : p.1 = k
    · have hk : k = p.1 := hp.symm
      rw [if_pos hk, if_pos hp, hk]
      cases hml : mdLookup m p.1 with
      | none => simp
      | some l => simp
    · have hk : ¬ k = p.1 := fun h => hp h.symm
      rw [if_neg hk, if_neg hp]

/-- Replacing the stored list of a present key is visible to lookup. -/
theorem mdLookup_mdReplace {α : Type} (m : MultiDict α) (k : String)
    (nl : List α) (h : (mdLookup m k).isSome = true) :
    mdLookup (mdReplace m k nl) k = some nl := by
  induction m with
  | nil => simp [mdLookup] at h
  | cons e rest ih =>
    obtain ⟨k1, l⟩ := e
    by_cases hk : k1 = k
    · simp [mdReplace, mdLookup, hk]
    · simp only [mdLookup, if_neg hk] at h
      simp [mdReplace, mdLookup, hk, ih h]

/-- After `dict.pop(key)` the key is gone from iteration. -/
theorem not_mem_keys_mdErase {α : Type} (m : MultiDict α) (k : String) :
    k ∉ mdKeys (mdErase m k) := by
  intro h
  simp only [mdKeys, mdErase, List.mem_map] at h
  obtain ⟨e, he, hek⟩ := h
  rw [List.mem_filter] at he
  exact absurd hek (by simpa using he.2)

/-- C5 (counterexample): the all-values accessor `_get` called on an absent
key does not return an empty sequence: its Python default argument `(None,)`
makes the result the one-element list `[None]`. -/
theorem md_get_absent_not_empty :
    md_get ([] : MultiDict (Option String)) "a" [Option.none] = [Option.none] ∧
    ([Option.none] : List (Option String)) ≠ [] ∧
    (md_get ([] : MultiDict (Option String)) "a" [Option.none]).length = 1 := by
  refine ⟨rfl, by simp, rfl⟩

/-- C5 (amended): over every sequence of `set` operations, `get` returns the
most recently set value for the key (or the caller-supplied default if the
key is absent); the all-values view `_get` returns the full list of set
values — its length equals the number of `set` calls — for a present key,
and for an absent key returns the caller-supplied default list (by Python
default `[None]`, a one-element list, not an empty one); `pop` drops the last
value while more than one remains and otherwise removes the key from
iteration, leaving the dict unchanged when the key is absent. -/
theorem multidict_set_get_pop_contract {α : Type} [DecidableEq α] :
    (∀ (ops : List (String × α)) (k : String) (d : α),
       mdGet (applySets ops) k d = (valsFor ops k).getLastD d)
  ∧ (∀ (ops : List (String × α)) (k : String) (d : List α),
       md_get (applySets ops) k d =
         if valsFor ops k = [] then d else valsFor ops k)
  ∧ (∀ (m : MultiDict α) (k : String) (l : List α), mdLookup m k = some l →
       (1 < l.length → mdLookup (mdPop m k) k = some l.dropLast)
       ∧ (l.length ≤ 1 → k ∉ mdKeys (mdPop m k)))
  ∧ (∀ (m : MultiDict α) (k : String), mdLookup m k = none → mdPop m k = m) := by
  have hfold : ∀ (ops : List (String × α)) (k : String),
      mdLookup (applySets ops) k =
        if valsFor ops k = [] then none else some (valsFor ops k) := by
    intro ops k
    have h := mdLookup_foldl_set ops k []
    simpa [applySets, mdLookup] using h
  refine ⟨?_, ?_, ?_, ?_⟩
  · intro ops k d
    rw [mdGet, hfold]
    by_cases hvs : valsFor ops k = [] <;> simp [hvs]
  · intro ops k d
    rw [md_get, hfold]
    by_cases hvs : valsFor ops k = [] <;> simp [hvs]
  · intro m k l hl
    constructor
    · intro hlen
      have hgt : l.length > 1 := hlen
      simp only [mdPop, hl, if_pos hgt]
      exact mdLookup_mdReplace m k l.dropLast (by simp [hl])
    · intro hlen
      have hngt : ¬ l.length > 1 := by omega
      simp only [mdPop, hl, if_neg hngt]
      exact not_mem_keys_mdErase m k
  · intro m k hnone
    simp only [mdPop, hnone]

/-- Witness for C5 at concrete operation sequences and dict states. -/
theorem multidict_set_get_pop_contract_witness :
    mdGet (applySets [("a", "x"), ("b", "w"), ("a", "y")]) "a" "z" = "y" ∧
    md_get (applySets [("a", "x"), ("b", "w"), ("a", "y")]) "a" ["q"] = ["x", "y"] ∧
    mdLookup (mdPop [("a", ["x", "y"])] "a") "a" = some ["x"] ∧
    "a" ∉ mdKeys (mdPop [("a", ["x"])] "a") ∧
    mdPop [("b", ["u"])] "a" = [("b", ["u"])] := by
  refine ⟨?_, ?_, ?_, ?_, ?_⟩
  · exact (multidict_set_get_pop_contract.1
      [("a", "x"), ("b", "w"), ("a", "y")] "a" "z").trans (by decide)
  · exact (multidict_set_get_pop_contract.2.1
      [("a", "x"), ("b", "w"), ("a", "y")] "a" ["q"]).trans (by decide)
  · exact (((multidict_set_get_pop_contract.2.2.1
      [("a", ["x", "y"])] "a" ["x", "y"] (by decide)).1 (by decide)).trans (by decide))
  · exact (multidict_set_get_pop_contract.2.2.1
      [("a", ["x"])] "a" ["x"] (by decide)).2 (by decide)
  · exact multidict_set_get_pop_contract.2.2.2 [("b", ["u"])] "a" (by decide)

/-- C8 (counterexample): coercing the integer 999 — a non-null value of a
handled type — does not yield a `Response` with status 999: the branch
evaluates `HTTPStatus(999)`, which raises `ValueError`, so the coercion
produces no response at all. -/
theorem from_any_nonstandard_int_error :
    fromAny (.int 999) = .error .valueError ∧
    ∀ r : Response, fromAny (.int 999) ≠ .ok r := by
  refine ⟨rfl, fun r h => ?_⟩
  rw [show fromAny (.int 999) = .error .valueError from rfl] at h
  exact Except.noConfusion h

/-- C8 (amended): `from_any` coerces an integer that is a standard HTTP
status to a response with that status and the status phrase as body, but
raises `ValueError` for any other integer; a string to 200 with its UTF-8
bytes; bytes to 200 with that body; a mapping to 200 with content-type
`application/json` and its JSON serialization as body; a `Response` is
passed through unchanged; `None` gives 204 with empty body; any other value
raises `TypeError`. -/
theorem from_any_coercion :
    (∀ (n : Int) (p : String), httpPhrase? n = some p →
       fromAny (.int n) = .ok (Response.make n [] (utf8Encode p)) ∧
       (Response.make n [] (utf8Encode p)).status = n ∧
       (Response.make n [] (utf8Encode p)).body = utf8Encode p)
  ∧ (∀ n : Int, httpPhrase? n = none → fromAny (.int n) = .error .valueError)
  ∧ (∀ s : String,
       fromAny (.str s) = .ok (Response.make 200 [] (utf8Encode s)) ∧
       (Response.make 200 [] (utf8Encode s)).status = 200 ∧
       (Response.make 200 [] (utf8Encode s)).body = utf8Encode s)
  ∧ (∀ b : Bytes,
       fromAny (.bytes b) = .ok (Response.make 200 [] b) ∧
       (Response.make 200 [] b).status = 200 ∧
       (Response.make 200 [] b).body = b)
  ∧ (∀ d : List (String × PyJson),
       fromAny (.dict d) =
         .ok (Response.make 200 [("content-type", ["application/json"])]
               (utf8Encode (jsonDumps (.obj d)))) ∧
       (Response.make 200 [("content-type", ["application/json"])]
           (utf8Encode (jsonDumps (.obj d)))).status = 200 ∧
       mdLookup (Response.make 200 [("content-type", ["application/json"])]
           (utf8Encode (jsonDumps (.obj d)))).headers "content-type" =
         some ["application/json"] ∧
       (Response.make 200 [("content-type", ["application/json"])]
           (utf8Encode (jsonDumps (.obj d)))).body =
         utf8Encode (jsonDumps (.obj d)))
  ∧ (∀ r : Response, fromAny (.resp r) = .ok r)
  ∧ (fromAny .pynone = .ok (Response.make 204 [] []) ∧
       (Response.make 204 [] []).status = 204 ∧
       (Response.make 204 [] []).body = [])
  ∧ (fromAny .other = .error .typeError) := by
  have hbody200 : ∀ b : Bytes, (Response.make 200 [] b).body = b := by
    intro b
    simp only [Response.make]
    rw [if_neg]
    rintro ⟨-, h, -⟩
    norm_num at h
  refine ⟨?_, ?_, ?_, ?_, ?_, fun r => rfl, ⟨rfl, rfl, by decide⟩, rfl⟩
  · intro n p h
    refine ⟨by simp [fromAny, h], rfl, ?_⟩
    simp only [Response.make, h, Option.getD_some]
    split
    · rfl
    · rfl
  · intro n h
    simp [fromAny, h]
  · intro s
    exact ⟨rfl, rfl, hbody200 (utf8Encode s)⟩
  · intro b
    exact ⟨rfl, rfl, hbody200 b⟩
  · intro d
    refine ⟨rfl, rfl, by rfl, ?_⟩
    simp only [Response.make]
    rw [if_neg]
    rintro ⟨-, h, -⟩
    norm_num at h

/-- Witness for C8 at concrete coercion inputs. -/
theorem from_any_coercion_witness :
    fromAny (.int 404) = .ok (Response.make 404 [] (utf8Encode "Not Found")) ∧
    (Response.make 404 [] (utf8Encode "Not Found")).body =
      utf8Encode "Not Found" ∧
    fromAny (.int 600) = .error .valueError :=
  ⟨(from_any_coercion.1 404 "Not Found" rfl).1,
   (from_any_coercion.1 404 "Not Found" rfl).2.2,
   from_any_coercion.2.1 600 rfl⟩

/-- A scan over non-matching routes reaches the rest of the table. -/
theorem findMatch_skip (pre rest : List (PatternFn × MethodTable))
    (path : String) (hpre : ∀ r ∈ pre, r.1 path = none) :
    findMatch (pre ++ rest) path = findMatch rest path := by
  induction pre with
  | nil => rfl
  | cons x prest ih =>
    obtain ⟨p, ms⟩ := x
    have hx : p path = none := hpre (p, ms) (List.mem_cons_self _ _)
    simp only [List.cons_append, findMatch, hx]
    exact ih (fun y hy => hpre y (List.mem_cons_of_mem _ hy))

/-- A table of non-matching routes yields no match. -/
theorem findMatch_none (routes : List (PatternFn × MethodTable)) (path : String)
    (h : ∀ r ∈ routes, r.1 path = none) : findMatch routes path = none := by
  have := findMatch_skip routes [] path h
  simpa using this

/-- C6: routes are tried in registration order and the first pattern whose
compiled form fully matches the whole path wins (`PatternFn` embeds
`re.compile(pattern).fullmatch`): ahead of any number of non-matching routes,
a matching route receives the dispatch, with its named groups copied into the
request's path parameters and handed to the registered handler; if the
method table lacks the request method the result is 405 with an `Allow`
header joining every registered method name in registration order; if no
route matches the result is 404. -/
theorem routing_first_match_dispatch :
    (∀ (routes : List (PatternFn × MethodTable)) (req : Request),
       (∀ r ∈ routes, r.1 req.path = none) →
       routeStage routes req = .ok ([], Response.make 404 [] []))
  ∧ (∀ (pre post : List (PatternFn × MethodTable)) (p : PatternFn)
       (ms : MethodTable) (req : Request) (groups : List (String × String)),
       (∀ r ∈ pre, r.1 req.path = none) → p req.path = some groups →
       (∀ f, lookupMethod ms req.method = some f →
          routeStage (pre ++ (p, ms) :: post) req =
            (fromAny (f ⟨req.method, req.path, groups⟩)).map
              (fun r => ([Ev.handler], r)))
       ∧ (lookupMethod ms req.method = none →
           routeStage (pre ++ (p, ms) :: post) req = .ok ([], response405 ms)))
  ∧ (∀ ms : MethodTable, (response405 ms).status = 405 ∧
       mdLookup (response405 ms).headers "allow" =
         some [joinComma (ms.map Prod.fst)]) := by
  refine ⟨?_, ?_, ?_⟩
  · intro routes req h
    simp [routeStage, findMatch_none routes req.path h]
  · intro pre post p ms req groups hpre hp
    have hfm : findMatch (pre ++ (p, ms) :: post) req.path = some (groups, ms) := by
      rw [findMatch_skip pre _ req.path hpre]
      simp [findMatch, hp]
    constructor
    · intro f hf
      simp [routeStage, hfm, hf]
    · intro hf
      simp [routeStage, hfm, hf]
  · intro ms
    refine ⟨rfl, ?_⟩
    show mdLookup (mdSet (Response.make 405 [] []).headers "allow"
      (joinComma (ms.map Prod.fst))) "allow" = _
    simp [Response.make, mdSetdefaultL, mdLookup, mdSet]

/-- Witness for C6 at a concrete route table and requests. -/
theorem routing_first_match_dispatch_witness :
    routeStage [] ⟨"GET", "/nope", []⟩ = .ok ([], Response.make 404 [] []) ∧
    routeStage
      [(fun path => if path = "/users/42" then some [("id", "42")] else none,
        [("GET", fun r => PyVal.str r.method)])]
      ⟨"GET", "/users/42", []⟩ =
      (fromAny ((fun (r : Request) => PyVal.str r.method)
          ⟨"GET", "/users/42", [("id", "42")]⟩)).map
        (fun r => ([Ev.handler], r)) ∧
    routeStage
      [(fun path => if path = "/users/42" then some [("id", "42")] else none,
        [("GET", fun r => PyVal.str r.method),
         ("POST", fun _ => PyVal.pynone)])]
      ⟨"PUT", "/users/42", []⟩ =
      .ok ([], response405
        [("GET", fun r => PyVal.str r.method),
         ("POST", fun _ => PyVal.pynone)]) := by
  refine ⟨?_, ?_, ?_⟩
  · exact routing_first_match_dispatch.1 [] ⟨"GET", "/nope", []⟩
      (by intro r hr; cases hr)
  · exact (routing_first_match_dispatch.2.1 []
      [] (fun path => if path = "/users/42" then some [("id", "42")] else none)
      [("GET", fun r => PyVal.str r.method)]
      ⟨"GET", "/users/42", []⟩ [("id", "42")]
      (by intro r hr; cases hr) (by rfl)).1
      (fun r => PyVal.str r.method) (by rfl)
  · exact (routing_first_match_dispatch.2.1 []
      [] (fun path => if path = "/users/42" then some [("id", "42")] else none)
      [("GET", fun r => PyVal.str r.method), ("POST", fun _ => PyVal.pynone)]
      ⟨"PUT", "/users/42", []⟩ [("id", "42")]
      (by intro r hr; cases hr) (by rfl)).2 (by rfl)

/-- The before-hook loop up to the first truthy-returning hook: all earlier
hooks run (and are traced), the truthy hook's value is coerced and raised. -/
theorem runBefore_split (pre : List (Nat × BeforeHook)) (i : Nat)
    (bh : BeforeHook) (post : List (Nat × BeforeHook)) (req : Request)
    (hpre : ∀ x ∈ pre, truthy (x.2 req) = false)
    (hh : truthy (bh req) = true) :
    runBefore (pre ++ (i, bh) :: post) req =
      (pre.map (fun x => Ev.beforeHk x.1) ++ [Ev.beforeHk i],
       some (fromAny (bh req))) := by
  induction pre with
  | nil => simp [runBefore, hh]
  | cons x rest ih =>
    obtain ⟨j, g⟩ := x
    have hx : truthy (g req) = false := by
      simpa using hpre (j, g) (List.mem_cons_self _ _)
    have hr : ∀ y ∈ rest, truthy (y.2 req) = false :=
      fun y hy => hpre y (List.mem_cons_of_mem _ hy)
    simp [runBefore, hx, ih hr]

/-- Every event traced by the after-hook loop is an `afterHk` event carrying
exactly the response value the loop was entered with. -/
theorem runAfter_events (hooks : List (Nat × AfterHook)) (req : Request)
    (resp : Response) :
    ∀ (t : List Ev) (r : Response), runAfter hooks req resp = .ok (t, r) →
      ∀ e ∈ t, ∃ j, e = Ev.afterHk j resp := by
  induction hooks with
  | nil =>
    intro t r h e he
    simp only [runAfter, Except.ok.injEq, Prod.mk.injEq] at h
    rw [← h.1] at he
    cases he
  | cons x rest ih =>
    obtain ⟨i, f⟩ := x
    intro t r h e he
    cases ht : truthy (f req resp) with
    | true =>
      cases hco : fromAny (f req resp) with
      | ok r2 =>
        simp only [runAfter, ht, if_true, hco, Except.ok.injEq,
          Prod.mk.injEq] at h
        rw [← h.1] at he
        rw [List.mem_singleton] at he
        exact ⟨i, he⟩
      | error e2 =>
        simp only [runAfter, ht, if_true, hco] at h
        exact Except.noConfusion h
    | false =>
      cases hrest : runAfter rest req resp with
      | error e2 =>
        simp only [runAfter, ht, Bool.false_eq_true, if_false, hrest,
          Except.map_error] at h
        exact Except.noConfusion h
      | ok pr =>
        simp only [runAfter, ht, Bool.false_eq_true, if_false, hrest,
          Except.map, Except.ok.injEq, Prod.mk.injEq] at h
        rw [← h.1] at he
        rcases List.mem_cons.mp he with he1 | he1
        · exact ⟨i, he1⟩
        · exact ih pr.1 pr.2 (by simp [hrest]) e he1

/-- C7 (counterexample): a before-hook returning the non-null but falsy
value `0` does not veto: the remaining pipeline runs, the route handler is
invoked, and the response is the handler's response, not a coercion of `0`. -/
theorem before_hook_falsy_no_veto :
    handleRequest
      ⟨[(fun path => if path = "/" then some [] else none,
         [("GET", fun _ => PyVal.str "handled")])],
       [(0, fun _ => PyVal.int 0)], []⟩
      ⟨"GET", "/", []⟩ =
      .ok ([Ev.beforeHk 0, Ev.handler],
           Response.make 200 [] (utf8Encode "handled")) ∧
    Ev.handler ∈ [Ev.beforeHk 0, Ev.handler] ∧
    truthy (PyVal.int 0) = false ∧
    PyVal.int 0 ≠ PyVal.pynone := by
  refine ⟨rfl, by decide, rfl, fun h => PyVal.noConfusion h⟩

/-- C7 (amended): if a before-hook returns a truthy value (the code tests
truthiness, not non-nullness), its coercion becomes the in-progress
response; the remaining before-hooks and the route handler are never
invoked — the trace consists of the earlier hooks, this hook, and after-hook
events only — and the after-hook chain runs on this early response (every
after-hook event carries it), up to the first after-hook that itself
replaces the response. -/
theorem before_hook_truthy_short_circuit
    (routes : List (PatternFn × MethodTable))
    (pre post : List (Nat × BeforeHook)) (i : Nat) (bh : BeforeHook)
    (afters : List (Nat × AfterHook)) (req : Request) (er : Response)
    (hpre : ∀ x ∈ pre, truthy (x.2 req) = false)
    (hh : truthy (bh req) = true)
    (hco : fromAny (bh req) = .ok er) :
    handleRequest ⟨routes, pre ++ (i, bh) :: post, afters⟩ req =
      (runAfter afters req er).map
        (fun p => ((pre.map (fun x => Ev.beforeHk x.1) ++ [Ev.beforeHk i]) ++ p.1,
                   p.2))
    ∧ ∀ (t : List Ev) (r : Response),
        handleRequest ⟨routes, pre ++ (i, bh) :: post, afters⟩ req = .ok (t, r) →
          Ev.handler ∉ t ∧
          ∀ (j : Nat) (resp : Response), Ev.afterHk j resp ∈ t → resp = er := by
  have h1 : handleRequest ⟨routes, pre ++ (i, bh) :: post, afters⟩ req =
      (runAfter afters req er).map
        (fun p => ((pre.map (fun x => Ev.beforeHk x.1) ++ [Ev.beforeHk i]) ++ p.1,
                   p.2)) := by
    unfold handleRequest
    rw [runBefore_split pre i bh post req hpre hh, hco]
  refine ⟨h1, ?_⟩
  intro t r h
  rw [h1] at h
  cases hra : runAfter afters req er with
  | error e => rw [hra] at h; exact Except.noConfusion h
  | ok pr =>
    rw [hra] at h
    simp only [Except.map, Except.ok.injEq, Prod.mk.injEq] at h
    have hevents := runAfter_events afters req er pr.1 pr.2 (by simp [hra])
    constructor
    · intro hmem
      rw [← h.1] at hmem
      rcases List.mem_append.mp hmem with hm1 | hm2
      · rcases List.mem_append.mp hm1 with hm3 | hm4
        · obtain ⟨x, -, hx⟩ := List.mem_map.mp hm3
          exact Ev.noConfusion hx
        · rw [List.mem_singleton] at hm4
          exact Ev.noConfusion hm4
      · obtain ⟨j, hj⟩ := hevents _ hm2
        exact Ev.noConfusion hj
    · intro j resp hmem
      rw [← h.1] at hmem
      rcases List.mem_append.mp hmem with hm1 | hm2
      · rcases List.mem_append.mp hm1 with hm3 | hm4
        · obtain ⟨x, -, hx⟩ := List.mem_map.mp hm3
          exact Ev.noConfusion hx
        · rw [List.mem_singleton] at hm4
          exact Ev.noConfusion hm4
      · obtain ⟨j2, hj⟩ := hevents _ hm2
        injection hj with hj1 hj2

/-- Witness for C7 at a concrete app with a truthy before-hook. -/
theorem before_hook_truthy_short_circuit_witness :
    handleRequest
      ⟨[(fun path => if path = "/" then some [] else none,
         [("GET", fun _ => PyVal.str "handled")])],
       [(0, fun _ => PyVal.pynone), (1, fun _ => PyVal.str "early")],
       [(7, fun _ _ => PyVal.pynone)]⟩
      ⟨"GET", "/", []⟩ =
      (runAfter [(7, fun _ _ => PyVal.pynone)] ⟨"GET", "/", []⟩
          (Response.make 200 [] (utf8Encode "early"))).map
        (fun p : List Ev × Response =>
          (([((0 : Nat), (fun _ => PyVal.pynone : BeforeHook))].map
              (fun x => Ev.beforeHk x.1) ++
            [Ev.beforeHk 1]) ++ p.1, p.2)) :=
  (before_hook_truthy_short_circuit
    [(fun path => if path = "/" then some [] else none,
      [("GET", fun _ => PyVal.str "handled")])]
    [(0, fun _ => PyVal.pynone)] [] 1 (fun _ => PyVal.str "early")
    [(7, fun _ _ => PyVal.pynone)] ⟨"GET", "/", []⟩
    (Response.make 200 [] (utf8Encode "early"))
    (by intro x hx; rw [List.mem_singleton] at hx; subst hx; rfl)
    rfl rfl).1

end UHttp
